import Mathlib

/-!
Shallow embedding of the UI widget logic of `assets/js/script.js` (a static
site front-end: theme toggle, tabs, media modal, audio library, quotes
spotlight, stats counter, reels feed), together with theorems checking the
natural-language specification of each widget against the embedded code.

Conventions of the embedding:
- JavaScript numbers are modelled by `JSNum` (an exact rational plus the
  non-finite values NaN and signed infinities); `undefined` flowing into a
  numeric position is modelled as NaN, which is how JavaScript coerces it.
- DOM element lists become Lean lists; CSS classes such as `is-active`,
  `is-visible`, `u-hide` become parallel `List Bool` fields of a state record.
- `localStorage` is a single `Option String` field; absent attribute values
  are `Option String` with `none`.
- JavaScript string lowercasing is modelled by `Char.toLower` (basic latin
  letters), which agrees with `String.prototype.toLowerCase` on the ASCII
  range used by the code.
-/

namespace Saleh

/-- JavaScript number: NaN, signed infinities, or a finite value modelled
as an exact rational. -/
inductive JSNum where
  | nan
  | posInf
  | negInf
  | fin (q : ℚ)
deriving DecidableEq

/-- The `isFinite` predicate of JavaScript. -/
def JSNum.isFiniteNum : JSNum → Bool
  | .fin _ => true
  | _ => false

/-- Embeds `String(ss).padStart(2, "0")` for a natural number `ss`
(as used on the seconds field of `formatTime`). -/
def pad2 (n : ℕ) : String :=
  if n < 10 then "0" ++ toString n else toString n

/-- Embeds `formatTime` of the audio library in `assets/js/script.js`:
`if (!isFinite(s) || s < 0) return "--:--"; const mm = Math.floor(s / 60);
const ss = Math.floor(s % 60); return mm + ":" + padded ss`.  For a
nonnegative `s` the JavaScript remainder `s % 60` equals
`s - 60 * Math.floor(s / 60)`. -/
def formatTime : JSNum → String
  | .fin q =>
    if q < 0 then "--:--"
    else
      let mm : ℤ := ⌊q / 60⌋
      let rem : ℚ := q - 60 * (mm : ℚ)
      let ss : ℤ := ⌊rem⌋
      toString mm ++ ":" ++ pad2 ss.toNat
  | _ => "--:--"

/-! Theme controller (`assets/js/script.js`, sections 8 and 16).
State of the pieces of the document the theme code touches: the persisted
storage key, the OS `prefers-color-scheme: dark` media query, the
`data-theme` attribute on the root element, and the `is-dark` body class
(the resolved theme). -/

structure ThemeState where
  stored : Option String
  osDark : Bool
  dataThemeAttr : Option String
  bodyIsDark : Bool
deriving DecidableEq

/-- Embeds `applyColorTheme(variant, { persist })`: for `"system"` the
effective theme comes from the OS media query and the `data-theme`
attribute is removed; otherwise the attribute is set to the variant.  The
body class `is-dark` is toggled to whether the effective theme is dark,
and on `persist` the variant string is stored. -/
def applyColorTheme (variant : String) (persist : Bool) (s : ThemeState) : ThemeState :=
  let effective := if variant = "system" then (if s.osDark then "dark" else "light") else variant
  let attr : Option String := if variant = "system" then none else some variant
  let isDark := effective = "dark"
  let s1 : ThemeState := { s with dataThemeAttr := attr, bodyIsDark := isDark }
  if persist then { s1 with stored := some variant } else s1

/-- Embeds the guard of `handleSystemThemeChange`: a stored value that is
truthy and not `"system"` means the user forced a manual theme. -/
def storedForcesManual : Option String → Bool
  | some v => v ≠ "" && v ≠ "system"
  | none => false

/-- Embeds `handleSystemThemeChange`: `if (stored && stored !== "system")
return; applyColorTheme("system")`. -/
def handleSystemThemeChange (s : ThemeState) : ThemeState :=
  if storedForcesManual s.stored then s else applyColorTheme "system" false s

/-- An OS preference-change event: the media query flips to `b` and the
registered `change` listener `handleSystemThemeChange` runs. -/
def osChange (b : Bool) (s : ThemeState) : ThemeState :=
  handleSystemThemeChange { s with osDark := b }

/-- Embeds the current-theme test inside the toggle click handler of
`initThemeToggle`: dark iff `data-theme` is `"dark"`, or the attribute is
absent and the OS reports dark. -/
def themeIsCurrentlyDark (s : ThemeState) : Bool :=
  (s.dataThemeAttr == some "dark") || (s.dataThemeAttr == none && s.osDark)

/-- Embeds the toggle click handler of `initThemeToggle`: pick the opposite
of the currently effective theme and apply it with persistence. -/
def themeToggleClick (s : ThemeState) : ThemeState :=
  let next := if themeIsCurrentlyDark s then "light" else "dark"
  applyColorTheme next true s

/-- Embeds `bootTheme`: read the stored preference (falsy means
`"system"`) and apply it without persisting. -/
def bootTheme (s : ThemeState) : ThemeState :=
  let initial := match s.stored with
    | some v => if v = "" then "system" else v
    | none => "system"
  applyColorTheme initial false s

/-! Generic tabs (`initTabs` in `assets/js/script.js`).  A tab carries the
`data-tab-target` attribute, a panel the `data-tab-panel` attribute; both
are `none` when the attribute is absent. -/

structure Tab where
  key : Option String
deriving DecidableEq

structure Panel where
  key : Option String
deriving DecidableEq

/-- The `is-active` classes of the tabs and the `is-visible` classes of the
panels of one tab group. -/
structure TabsState where
  tabActive : List Bool
  panelVisible : List Bool
deriving DecidableEq

/-- The key `activateTab` reads from a tab: `tabEl.getAttribute("data-tab-target")`
with the falsy guard `if (!key) return` folding the empty string into `none`. -/
def tabKeyOf (t : Tab) : Option String :=
  match t.key with
  | some k => if k = "" then none else some k
  | none => none

/-- A one-hot boolean list: entry `j` of `onehot n i` is `true` exactly when
`j = i` (the `t === tabEl` comparison of `activateTab`, by position). -/
def onehot (n i : ℕ) : List Bool :=
  (List.range n).map (fun j => j == i)

/-- Embeds `activateTab` of `initTabs`: a missing or empty target key is a
no-op; otherwise every tab toggles `is-active` on being the clicked tab and
every panel toggles `is-visible` on its `data-tab-panel` matching the key. -/
def activateTab (tabs : List Tab) (panels : List Panel) (i : ℕ) (s : TabsState) : TabsState :=
  match tabs[i]? with
  | none => s
  | some t =>
    match tabKeyOf t with
    | none => s
    | some k =>
      { tabActive := onehot tabs.length i,
        panelVisible := panels.map (fun p => p.key == some k) }

/-- Running a tab group: `initTabs` activates the first tab while wiring
(`if (idx === 0) activateTab(tab)`), then each user activation (click or
Enter/Space keydown) runs `activateTab` on the chosen tab. -/
def runTabs (tabs : List Tab) (panels : List Panel) (acts : List ℕ) (s0 : TabsState) : TabsState :=
  acts.foldl (fun s a => activateTab tabs panels a s) (activateTab tabs panels 0 s0)

/-- The index of the most recently activated tab after `runTabs`: the last
user activation, or tab 0 from initialization when there was none. -/
def lastAct (acts : List ℕ) : ℕ :=
  (acts.getLast?).getD 0

/-! Media detail modal (`initMediaModals` in `assets/js/script.js`). -/

/-- A node mounted into `[data-modal-video-mount]`. -/
inductive MediaNode where
  | videoNode (src : String) (poster : String)
  | audioNode (src : String)
  | iframeNode (src : String)
  | otherNode
deriving DecidableEq

/-- Whether a mounted node is a live media element (a `video` or `audio`). -/
def MediaNode.isMediaEl : MediaNode → Bool
  | .videoNode _ _ => true
  | .audioNode _ => true
  | _ => false

/-- The part of the media modal the close handler touches: the children of
the video mount point and the display of the fallback figure. -/
structure MediaModalState where
  mount : List MediaNode
  fallbackVisible : Bool
deriving DecidableEq

/-- Embeds the `hidden.bs.modal` handler of `initMediaModals`:
`clearMount()` (which empties the mount) and `showFallbackImage(true)`. -/
def mediaModalOnHidden (_s : MediaModalState) : MediaModalState :=
  { mount := [], fallbackVisible := true }

/-- Embeds `value || fallback` on dataset strings: an absent attribute or
the empty string falls back. -/
def orElseStr (v : Option String) (d : String) : String :=
  match v with
  | some s => if s = "" then d else s
  | none => d

/-- Is `needle` a prefix of `hay`, by character comparison. -/
def isPrefOf : List Char → List Char → Bool
  | [], _ => true
  | _ :: _, [] => false
  | a :: as, b :: bs => a == b && isPrefOf as bs

/-- Is `needle` a contiguous substring of `hay`
(`String.prototype.includes`, an unanchored regular-expression test). -/
def containsSubL (needle : List Char) : List Char → Bool
  | [] => needle.isEmpty
  | c :: t => isPrefOf needle (c :: t) || containsSubL needle t

/-- Substring test on strings. -/
def containsS (hay needle : String) : Bool :=
  containsSubL needle.data hay.data

/-- Lowercasing of a character list (`String.prototype.toLowerCase`,
basic latin range). -/
def lowerL (l : List Char) : List Char :=
  l.map Char.toLower

/-- Does `hay` end with `needle`. -/
def endsWithL (needle hay : List Char) : Bool :=
  isPrefOf needle.reverse hay.reverse

/-- The dataset fields of a media card that `renderMedia` and
`resolveKind` read. -/
structure MediaDataset where
  modalImage : Option String
  modalVideo : Option String
  mediaType : Option String
  modalBadge : Option String
deriving DecidableEq

/-- Embeds `resolveKind(d).key`: lowercase `d.mediaType || d.modalBadge || ""`
and look for the reel/video/audio/photo markers (latin or Arabic), in that
order, defaulting to `"media"`. -/
def resolveKindKey (d : MediaDataset) : String :=
  let t := String.mk (lowerL (orElseStr d.mediaType (orElseStr d.modalBadge "")).data)
  if containsS t "reel" || containsS t "ريل" then "reel"
  else if containsS t "video" || containsS t "فيديو" then "video"
  else if containsS t "audio" || containsS t "صوت" then "audio"
  else if containsS t "photo" || containsS t "صورة" then "photo"
  else "media"

/-- Embeds the test `/\.mp4(\?|$)/i.test(videoUrl)`: case-insensitively,
the URL ends in `.mp4` or contains `.mp4?` somewhere. -/
def isMp4Url (u : String) : Bool :=
  let t := lowerL u.data
  endsWithL (".mp4".data) t || containsSubL (".mp4?".data) t

/-- Embeds the test `/youtube\.com\/embed|player\.vimeo\.com|https?:\/\//i.test(videoUrl)`:
the URL contains a known embed host marker or any `http(s)://` scheme. -/
def matchesEmbedPattern (u : String) : Bool :=
  let t := lowerL u.data
  containsSubL ("youtube.com/embed".data) t || containsSubL ("player.vimeo.com".data) t ||
    containsSubL ("http://".data) t || containsSubL ("https://".data) t

/-- What `renderMedia` leaves in the modal: the fallback figure, an
embedded iframe, or a native video element with its poster. -/
inductive RenderResult where
  | fallbackImg (poster : String)
  | iframeEl (src : String)
  | videoEl (src : String) (poster : String)
deriving DecidableEq

/-- Embeds `renderMedia` of `initMediaModals`: no video URL or a
photo/audio kind shows the fallback image; otherwise an embed-pattern URL
that is not an mp4 becomes an iframe, and anything else becomes a native
video element carrying the poster. -/
def renderMedia (d : MediaDataset) : RenderResult :=
  let poster := orElseStr d.modalImage "assets/img/articles/thumb1.png"
  let videoUrl := orElseStr d.modalVideo ""
  let kind := resolveKindKey d
  if videoUrl = "" || kind == "photo" || kind == "audio" then
    .fallbackImg poster
  else if matchesEmbedPattern videoUrl && !isMp4Url videoUrl then
    .iframeEl videoUrl
  else
    .videoEl videoUrl poster

/-- The shape named by the specification: a URL ending in `.mp4`,
optionally followed by a query string. -/
def endsInMp4OptQuery (u : String) : Prop :=
  (∃ a, u.data = a ++ ".mp4".data) ∨ (∃ a b, u.data = a ++ ".mp4?".data ++ b)

/-! Audio library (`initAudioLibrary` in `assets/js/script.js`). -/

/-- One `[data-audio-item]` row: its `data-audio` URL and the probed
`row._duration` (absent until the metadata probe fires; reading the absent
field in JavaScript yields `undefined`, which `formatTime` receives as
NaN). -/
structure AudioRow where
  url : Option String
  probedDuration : Option JSNum
deriving DecidableEq

/-- The duration value `formatTime(row._duration)` sees. -/
def rowDurationNum (r : AudioRow) : JSNum :=
  r.probedDuration.getD .nan

/-- The state of the audio library the row-activation handler touches:
the current row, the `is-active` classes, each row displayed time text,
the shared player source/load/playback state. -/
structure AudioState where
  currentRow : Option ℕ
  activeFlags : List Bool
  displayed : List String
  playerSrc : Option String
  loads : ℕ
  playing : Bool
deriving DecidableEq

/-- Embeds `setRowTimeToDuration(row)`: write `formatTime(row._duration)`
into the row displayed-time element. -/
def setRowTimeToDuration (rows : List AudioRow) (j : ℕ) (disp : List String) : List String :=
  match rows[j]? with
  | some r => disp.set j (formatTime (rowDurationNum r))
  | none => disp

/-- Embeds `loadAndPlayRow(row)`: a missing or empty URL is a no-op; the
already-current row toggles play/pause on the shared player; a different
row first freezes the old current row display to its probed duration, then
becomes the single active row, updates the player UI, switches the player
source, reloads, and begins playback. -/
def loadAndPlayRow (rows : List AudioRow) (i : ℕ) (s : AudioState) : AudioState :=
  match rows[i]? with
  | none => s
  | some row =>
    match row.url with
    | none => s
    | some url =>
      if url = "" then s
      else if s.currentRow = some i then
        if s.playing then { s with playing := false } else { s with playing := true }
      else
        let disp1 :=
          match s.currentRow with
          | some j => setRowTimeToDuration rows j s.displayed
          | none => s.displayed
        { currentRow := some i,
          activeFlags := onehot rows.length i,
          displayed := disp1,
          playerSrc := some url,
          loads := s.loads + 1,
          playing := true }

/-! Quotes spotlight (section 14 of `assets/js/script.js`). -/

/-- The dataset fields of one `[data-q-item]` entry. -/
structure QuoteItem where
  qText : Option String
  qYear : Option String
  qTypeLabel : Option String
  qMeta : Option String
  qSource : Option String
  qId : Option String
deriving DecidableEq

/-- The spotlight state `applySearch` touches: the `u-hide` and
`is-active` classes of the items, the `u-hide` class of the empty-state
element, and which item the featured pane was last rendered from. -/
structure QuotesState where
  hidden : List Bool
  active : List Bool
  emptyHidden : Bool
  featuredFrom : Option ℕ
deriving DecidableEq

/-- Whitespace trimming of both ends (`String.prototype.trim`). -/
def trimL (l : List Char) : List Char :=
  ((l.dropWhile Char.isWhitespace).reverse.dropWhile Char.isWhitespace).reverse

/-- Embeds `norm`: `String(s || "").trim().toLowerCase()`. -/
def normL (s : Option String) : List Char :=
  lowerL (trimL (s.getD "").data)

/-- The searchable fields, in the order `applySearch` concatenates them. -/
def searchFields (it : QuoteItem) : List (Option String) :=
  [it.qText, it.qYear, it.qTypeLabel, it.qMeta, it.qSource, it.qId]

/-- `Array.prototype.join(" ")` on character lists. -/
def joinSp : List (List Char) → List Char
  | [] => []
  | [x] => x
  | x :: y :: t => x ++ ' ' :: joinSp (y :: t)

/-- The haystack of one item: the normalized searchable fields joined with
single spaces. -/
def haystackL (it : QuoteItem) : List Char :=
  joinSp ((searchFields it).map normL)

/-- Embeds the match test of `applySearch`:
`!query || haystack.includes(query)` on the normalized query. -/
def matchItem (it : QuoteItem) (query : List Char) : Bool :=
  query.isEmpty || containsSubL query (haystackL it)

/-- The indices of the items not carrying `u-hide` (`getVisibleItems`). -/
def visIdx (hidden : List Bool) : List ℕ :=
  (List.range hidden.length).filter (fun j => !hidden.getD j true)

/-- Embeds `getActiveItem`: `null` when nothing is visible, else the first
visible item carrying `is-active`, else the first visible item. -/
def getActiveIdx (hidden active : List Bool) : Option ℕ :=
  match visIdx hidden with
  | [] => none
  | v =>
    match v.find? (fun j => active.getD j false) with
    | some j => some j
    | none => v.head?

/-- Embeds `applySearch(q)`: normalize the query, toggle `u-hide` per item
by the match test, toggle the empty state on the shown count, then
re-render the featured pane from `getActiveItem()` when it is non-null
(which re-marks exactly that item `is-active`). -/
def applySearch (items : List QuoteItem) (q : String) (s : QuotesState) : QuotesState :=
  let query := normL (some q)
  let hidden := items.map (fun it => !matchItem it query)
  let shown := (items.filter (fun it => matchItem it query)).length
  let s1 : QuotesState := { s with hidden := hidden, emptyHidden := decide (shown ≠ 0) }
  match getActiveIdx hidden s.active with
  | some j => { s1 with active := onehot items.length j, featuredFrom := some j }
  | none => s1

/-! Hero stats counter (`initHeroStatsCounter` in `assets/js/script.js`). -/

/-- One counter element: the numeric `data-count-to` target (the embedding
takes integer-valued targets) and the `data-prefix` / `data-suffix`
decorations. -/
structure CounterConfig where
  countTo : ℤ
  pre : String
  suf : String
deriving DecidableEq

/-- `easeOutCubic(t) = 1 - (1 - t)^3`. -/
def easeOutCubic (t : ℚ) : ℚ :=
  1 - (1 - t) ^ 3

/-- `Math.round`: half-up rounding. -/
def jsRound (q : ℚ) : ℤ :=
  ⌊q + 1 / 2⌋

/-- The text written for a counter value: the template
string of prefix, value, suffix. -/
def counterText (cfg : CounterConfig) (v : ℤ) : String :=
  cfg.pre ++ toString v ++ cfg.suf

/-- One animation frame of `animateCounter`: clamp the progress, ease it,
round the interpolated value (`from` is 0), and render. -/
def counterFrame (cfg : CounterConfig) (duration elapsed : ℚ) : String :=
  let t := min 1 (elapsed / duration)
  counterText cfg (jsRound ((cfg.countTo : ℚ) * easeOutCubic t))

/-- Embeds `animateCounter`: under reduced motion the final text is
written once and the function returns before any frame is scheduled;
otherwise each animation-frame callback at elapsed time `e` renders one
interpolated frame. -/
def animateCounterRenders (reduced : Bool) (cfg : CounterConfig) (duration : ℚ)
    (ticks : List ℚ) : List String :=
  if reduced then [counterText cfg cfg.countTo]
  else ticks.map (fun e => counterFrame cfg duration e)

/-! Reels feed (`initReelsModal` in `assets/js/script.js`). -/

/-- The reels state the navigation paths touch: the number of built
slides (`state.dataList.length`, equal to the slide count in the track),
the active index, and the scroll-sync gate. -/
structure ReelsState where
  n : ℕ
  activeIndex : ℤ
  allowScrollSync : Bool
deriving DecidableEq

/-- The clamp used by `setActive`, `goToIndex` and `calcActiveIndex`:
`Math.max(0, Math.min(index, count - 1))`. -/
def clampIdx (n : ℕ) (i : ℤ) : ℤ :=
  max 0 (min i ((n : ℤ) - 1))

/-- Embeds `setActive(index)`: store the clamped index (the side panel,
dot, pause and play calls do not touch the index). -/
def setActive (s : ReelsState) (i : ℤ) : ReelsState :=
  { s with activeIndex := clampIdx s.n i }

/-- Embeds `goToIndex(index)`: clamp against the slide count, bail out
when there is no such slide, suppress scroll sync for the smooth scroll,
and activate the clamped index. -/
def goToIndex (s : ReelsState) (i : ℤ) : ReelsState :=
  if s.n = 0 then s
  else setActive { s with allowScrollSync := false } (clampIdx s.n i)

/-- Embeds `calcActiveIndex` with the scroll-watcher body: when scroll
sync is enabled, compute the slide index from the scroll offset over the
viewport height (`clientHeight || 1`), clamped, and activate it when it
differs from the current index. -/
def scrollSync (s : ReelsState) (top : ℚ) (clientH : ℕ) : ReelsState :=
  if !s.allowScrollSync then s
  else
    let h : ℚ := if clientH = 0 then 1 else (clientH : ℚ)
    let idx := clampIdx s.n (jsRound (top / h))
    if idx = s.activeIndex then s else setActive s idx

/-- The user-visible events that can move the active reel index. -/
inductive ReelsEvent where
  | prevClick
  | nextClick
  | arrowUp
  | arrowDown
  | scrollEv (top : ℚ) (clientH : ℕ)
  | settleTimer
deriving DecidableEq

/-- Dispatch of one event: prev/ArrowUp step back, next/ArrowDown step
forward (both through `goToIndex`), a debounced scroll runs the sync, and
the settle timer of `goToIndex` re-enables scroll sync. -/
def reelsStep (s : ReelsState) : ReelsEvent → ReelsState
  | .prevClick => goToIndex s (s.activeIndex - 1)
  | .arrowUp => goToIndex s (s.activeIndex - 1)
  | .nextClick => goToIndex s (s.activeIndex + 1)
  | .arrowDown => goToIndex s (s.activeIndex + 1)
  | .scrollEv top h => scrollSync s top h
  | .settleTimer => { s with allowScrollSync := true }

/-- Folding a whole event sequence. -/
def runReels (s : ReelsState) (events : List ReelsEvent) : ReelsState :=
  events.foldl reelsStep s

/-- One reels slide as the close handler sees it: whether its video is
playing. -/
structure ReelSlide where
  videoPlaying : Bool
deriving DecidableEq

/-- The reels modal state the `hidden.bs.modal` handler touches. -/
structure ReelsModalDom where
  trackSlides : List ReelSlide
  dots : List Unit
  isBuilt : Bool
deriving DecidableEq

/-- Embeds the `hidden.bs.modal` handler of `initReelsModal`: pause every
slide video (each becomes non-playing), then empty the track and the dots
and drop the built flag; the paused slides are discarded with the track. -/
def reelsOnHidden (d : ReelsModalDom) : ReelsModalDom :=
  let withPaused : ReelsModalDom :=
    { d with trackSlides := d.trackSlides.map (fun _ => ReelSlide.mk false) }
  { withPaused with trackSlides := ([] : List ReelSlide), dots := [], isBuilt := false }

/-- The activation outcome of a valid tab: computed from the tab list
alone, for relating any activation sequence to its last element. -/
def tabsAfterActivation (tabs : List Tab) (panels : List Panel) (i : ℕ) : TabsState :=
  { tabActive := onehot tabs.length i,
    panelVisible := panels.map (fun p => p.key == tabs[i]?.bind tabKeyOf) }

/-- The first index not carrying `u-hide`. -/
def firstVis (hidden : List Bool) : Option ℕ :=
  (List.range hidden.length).find? (fun j => !hidden.getD j true)

/-! Theorems.  First some arithmetic bridges for `formatTime`. -/

theorem floorDivSixty (q : ℚ) : ⌊q / 60⌋ = ⌊q⌋ / 60 := by
  have h60 : (0 : ℤ) < 60 := by decide
  refine eq_of_forall_le_iff (fun z => ?_)
  have h1 : z ≤ ⌊q / 60⌋ ↔ (z : ℚ) ≤ q / 60 := Int.le_floor
  have h2 : (z : ℚ) ≤ q / 60 ↔ (z : ℚ) * 60 ≤ q := le_div_iff₀ (by norm_num)
  have h3 : (z : ℚ) * 60 ≤ q ↔ ((z * 60 : ℤ) : ℚ) ≤ q := by norm_cast
  have h4 : ((z * 60 : ℤ) : ℚ) ≤ q ↔ z * 60 ≤ ⌊q⌋ := Int.le_floor.symm
  have h5 : z * 60 ≤ ⌊q⌋ ↔ z ≤ ⌊q⌋ / 60 := (Int.le_ediv_iff_mul_le h60).symm
  exact h1.trans (h2.trans (h3.trans (h4.trans h5)))

theorem floorRemSixty (q : ℚ) : ⌊q - 60 * (⌊q / 60⌋ : ℚ)⌋ = ⌊q⌋ % 60 := by
  have hcast : (60 : ℚ) * (⌊q / 60⌋ : ℚ) = ((60 * ⌊q / 60⌋ : ℤ) : ℚ) := by push_cast; ring
  rw [hcast, Int.floor_sub_int, floorDivSixty, Int.emod_def]

/-- Claim C10: `formatTime` is total over all numeric inputs: every
non-finite or negative input yields the placeholder `"--:--"`, and every
finite nonnegative `s` yields the floor of `s / 60`, a colon, and the
floor of `s mod 60` zero-padded to two digits (so an unset duration,
arriving as NaN, displays as the placeholder, never as NaN text). -/
theorem claim_C10_formatTime (s : JSNum) :
    ((s.isFiniteNum = false ∨ ∃ q, s = JSNum.fin q ∧ q < 0) → formatTime s = "--:--") ∧
    (∀ q : ℚ, s = JSNum.fin q → 0 ≤ q →
      formatTime s = toString ⌊q / 60⌋ ++ ":" ++ pad2 (⌊q⌋ % 60).toNat) := by
  constructor
  · rintro (h | ⟨q, rfl, hq⟩)
    · cases s with
      | fin q => simp [JSNum.isFiniteNum] at h
      | nan => rfl
      | posInf => rfl
      | negInf => rfl
    · simp only [formatTime, if_pos hq]
  · rintro q rfl hq
    have hneg : ¬ q < 0 := not_lt.mpr hq
    simp only [formatTime, if_neg hneg]
    rw [floorRemSixty]

/-- Witness for claim C10 at concrete inputs: 125 seconds renders as
`2:05`, and NaN (an unprobed duration) renders as the placeholder. -/
theorem claim_C10_formatTime_witness :
    formatTime (JSNum.fin 125) = "2:05" ∧ formatTime JSNum.nan = "--:--" := by
  constructor
  · have h := (claim_C10_formatTime (JSNum.fin 125)).2 125 rfl (by norm_num)
    rw [h]
    have h125 : (⌊(125 : ℚ)⌋ : ℤ) = 125 := by
      norm_num
    have hdiv : (⌊(125 : ℚ) / 60⌋ : ℤ) = 2 := by
      norm_num [Int.floor_eq_iff]
    rw [h125, hdiv]
    decide
  · exact (claim_C10_formatTime JSNum.nan).1 (Or.inl rfl)

/-- Claim C1: with nothing persisted and the OS reporting dark, boot
resolves the theme dark; an explicit toggle flips the resolved theme
between light and dark and persists that choice; once an explicit
light/dark choice is persisted, an OS preference-change event leaves the
resolved theme (and the `data-theme` attribute and the stored choice)
unchanged; and OS changes do take effect when nothing is persisted or the
persisted value is literally `system`. -/
theorem claim_C1_theme (s : ThemeState) :
    (s.stored = none → s.osDark = true → (bootTheme s).bodyIsDark = true) ∧
    (s.bodyIsDark = themeIsCurrentlyDark s →
      (themeToggleClick s).bodyIsDark = !s.bodyIsDark ∧
      (themeToggleClick s).stored = some (if s.bodyIsDark then "light" else "dark")) ∧
    (∀ v, s.stored = some v → (v = "light" ∨ v = "dark") →
      ∀ b, (osChange b s).bodyIsDark = s.bodyIsDark ∧
        (osChange b s).dataThemeAttr = s.dataThemeAttr ∧
        (osChange b s).stored = s.stored) ∧
    ((s.stored = none ∨ s.stored = some "system") → ∀ b, (osChange b s).bodyIsDark = b) := by
  refine ⟨?_, ?_, ?_, ?_⟩
  · intro hstored hos
    simp [bootTheme, hstored, applyColorTheme, hos]
  · intro hsync
    cases hcur : themeIsCurrentlyDark s with
    | true =>
      rw [hsync, hcur]
      simp [themeToggleClick, hcur, applyColorTheme]
    | false =>
      rw [hsync, hcur]
      simp [themeToggleClick, hcur, applyColorTheme]
  · rintro v hv (rfl | rfl) b <;>
      simp [osChange, handleSystemThemeChange, storedForcesManual, hv]
  · rintro (hv | hv) b <;>
      cases b <;>
        simp [osChange, handleSystemThemeChange, storedForcesManual, hv, applyColorTheme]

/-- Witness for claim C1 at concrete states: boot with no stored value and
a dark OS resolves dark; toggling from a synced dark state lands on a
persisted light theme; an OS flip to light does not move a persisted
explicit light theme; an OS flip does move an unpersisted one. -/
theorem claim_C1_theme_witness :
    (bootTheme ⟨none, true, none, false⟩).bodyIsDark = true ∧
    ((themeToggleClick ⟨none, true, some "dark", true⟩).bodyIsDark = false ∧
      (themeToggleClick ⟨none, true, some "dark", true⟩).stored = some "light") ∧
    (osChange false ⟨some "light", true, some "light", false⟩).bodyIsDark = false ∧
    (osChange false ⟨none, true, none, true⟩).bodyIsDark = false := by
  refine ⟨?_, ?_, ?_, ?_⟩
  · exact (claim_C1_theme ⟨none, true, none, false⟩).1 rfl rfl
  · have h := (claim_C1_theme ⟨none, true, some "dark", true⟩).2.1 (by decide)
    exact ⟨h.1, h.2⟩
  · exact ((claim_C1_theme ⟨some "light", true, some "light", false⟩).2.2.1
      "light" rfl (Or.inl rfl) false).1
  · exact (claim_C1_theme ⟨none, true, none, true⟩).2.2.2 (Or.inl rfl) false

/-- Claim C4: closing the media-detail modal leaves no video or audio
element in the media mount point (the mount is emptied and the fallback
figure shown), and closing the reels modal leaves the slide track and the
dots empty, whatever the prior state. -/
theorem claim_C4_modalTeardown (s : MediaModalState) (d : ReelsModalDom) :
    ((mediaModalOnHidden s).mount.filter MediaNode.isMediaEl = [] ∧
      (mediaModalOnHidden s).mount = [] ∧
      (mediaModalOnHidden s).fallbackVisible = true) ∧
    ((reelsOnHidden d).trackSlides = [] ∧ (reelsOnHidden d).dots = [] ∧
      (reelsOnHidden d).isBuilt = false) := by
  exact ⟨⟨rfl, rfl, rfl⟩, ⟨rfl, rfl, rfl⟩⟩

/-- Claim C8: with reduced motion enabled, `animateCounter` renders the
final text `prefix + target + suffix` exactly once, whatever frame times
would have been scheduled, so no intermediate value is ever rendered; in
particular a target of 120 with empty decorations renders `"120"`. -/
theorem claim_C8_statsCounter (cfg : CounterConfig) (duration : ℚ) (ticks : List ℚ) :
    animateCounterRenders true cfg duration ticks = [cfg.pre ++ toString cfg.countTo ++ cfg.suf] ∧
    animateCounterRenders true ⟨120, "", ""⟩ 900 ticks = ["120"] := by
  constructor
  · rfl
  · rfl

theorem clampIdx_nonneg (n : ℕ) (i : ℤ) : 0 ≤ clampIdx n i := le_max_left 0 _

theorem clampIdx_le (n : ℕ) (i : ℤ) (hn : 1 ≤ n) : clampIdx n i ≤ (n : ℤ) - 1 := by
  have h1 : min i ((n : ℤ) - 1) ≤ (n : ℤ) - 1 := min_le_right _ _
  have h2 : (0 : ℤ) ≤ (n : ℤ) - 1 := by
    have : (1 : ℤ) ≤ (n : ℤ) := by exact_mod_cast hn
    omega
  exact max_le h2 h1

theorem reelsStep_n (s : ReelsState) (e : ReelsEvent) : (reelsStep s e).n = s.n := by
  cases e with
  | prevClick => simp only [reelsStep, goToIndex, setActive]; split <;> rfl
  | arrowUp => simp only [reelsStep, goToIndex, setActive]; split <;> rfl
  | nextClick => simp only [reelsStep, goToIndex, setActive]; split <;> rfl
  | arrowDown => simp only [reelsStep, goToIndex, setActive]; split <;> rfl
  | scrollEv top h =>
    simp only [reelsStep, scrollSync, setActive]
    split
    · rfl
    · split <;> split <;> rfl
  | settleTimer => rfl

theorem reelsStep_bounds (s : ReelsState) (e : ReelsEvent) (hn : 1 ≤ s.n)
    (h0 : 0 ≤ s.activeIndex) (h1 : s.activeIndex ≤ (s.n : ℤ) - 1) :
    0 ≤ (reelsStep s e).activeIndex ∧ (reelsStep s e).activeIndex ≤ (s.n : ℤ) - 1 := by
  have hne : s.n ≠ 0 := by omega
  cases e with
  | prevClick =>
    simp only [reelsStep, goToIndex, if_neg hne, setActive]
    exact ⟨clampIdx_nonneg _ _, clampIdx_le _ _ hn⟩
  | arrowUp =>
    simp only [reelsStep, goToIndex, if_neg hne, setActive]
    exact ⟨clampIdx_nonneg _ _, clampIdx_le _ _ hn⟩
  | nextClick =>
    simp only [reelsStep, goToIndex, if_neg hne, setActive]
    exact ⟨clampIdx_nonneg _ _, clampIdx_le _ _ hn⟩
  | arrowDown =>
    simp only [reelsStep, goToIndex, if_neg hne, setActive]
    exact ⟨clampIdx_nonneg _ _, clampIdx_le _ _ hn⟩
  | scrollEv top h =>
    simp only [reelsStep, scrollSync, setActive]
    split
    · exact ⟨h0, h1⟩
    · split <;> split
      all_goals
        first
          | exact ⟨h0, h1⟩
          | exact ⟨clampIdx_nonneg _ _, clampIdx_le _ _ hn⟩
  | settleTimer => exact ⟨h0, h1⟩

theorem runReels_bounds (s : ReelsState) (events : List ReelsEvent) (hn : 1 ≤ s.n)
    (h0 : 0 ≤ s.activeIndex) (h1 : s.activeIndex ≤ (s.n : ℤ) - 1) :
    (runReels s events).n = s.n ∧ 0 ≤ (runReels s events).activeIndex ∧
      (runReels s events).activeIndex ≤ (s.n : ℤ) - 1 := by
  induction events generalizing s with
  | nil => exact ⟨rfl, h0, h1⟩
  | cons e t ih =>
    have hstep := reelsStep_bounds s e hn h0 h1
    have hn' := reelsStep_n s e
    have := ih (reelsStep s e) (by omega) hstep.1 (by rw [hn']; exact hstep.2)
    refine ⟨?_, this.2.1, ?_⟩
    · simpa [runReels, hn'] using this.1
    · have := this.2.2
      rwa [hn'] at this

/-- Claim C9: with at least one built slide, after any sequence of
prev/next clicks, ArrowUp/ArrowDown presses, debounced scroll syncs and
settle timers, the active reel index stays within `[0, n - 1]` (and the
slide count does not change); stepping next at the last slide and prev at
the first slide are no-ops rather than wraparounds. -/
theorem claim_C9_reelsIndex (s : ReelsState) (events : List ReelsEvent) (hn : 1 ≤ s.n)
    (h0 : 0 ≤ s.activeIndex) (h1 : s.activeIndex ≤ (s.n : ℤ) - 1) :
    ((runReels s events).n = s.n ∧ 0 ≤ (runReels s events).activeIndex ∧
      (runReels s events).activeIndex ≤ (s.n : ℤ) - 1) ∧
    (s.activeIndex = (s.n : ℤ) - 1 →
      (reelsStep s ReelsEvent.nextClick).activeIndex = s.activeIndex) ∧
    (s.activeIndex = 0 → (reelsStep s ReelsEvent.prevClick).activeIndex = 0) := by
  have hne : s.n ≠ 0 := by omega
  refine ⟨runReels_bounds s events hn h0 h1, ?_, ?_⟩
  · intro htop
    simp only [reelsStep, goToIndex, if_neg hne, setActive, clampIdx]
    rw [htop]
    omega
  · intro hbot
    simp only [reelsStep, goToIndex, if_neg hne, setActive, clampIdx]
    rw [hbot]
    omega

/-- Witness for claim C9: a two-slide feed at index 1, driven through a
next click (a no-op at the end), a scroll sync, a settle timer and an
ArrowUp, stays in range, and the end stepping no-ops hold. -/
theorem claim_C9_reelsIndex_witness :
    ((runReels ⟨2, 1, true⟩
        [ReelsEvent.nextClick, ReelsEvent.scrollEv 0 1, ReelsEvent.settleTimer,
          ReelsEvent.arrowUp]).n = 2 ∧
      0 ≤ (runReels ⟨2, 1, true⟩
        [ReelsEvent.nextClick, ReelsEvent.scrollEv 0 1, ReelsEvent.settleTimer,
          ReelsEvent.arrowUp]).activeIndex ∧
      (runReels ⟨2, 1, true⟩
        [ReelsEvent.nextClick, ReelsEvent.scrollEv 0 1, ReelsEvent.settleTimer,
          ReelsEvent.arrowUp]).activeIndex ≤ ((2 : ℕ) : ℤ) - 1) ∧
    ((1 : ℤ) = ((2 : ℕ) : ℤ) - 1 →
      (reelsStep ⟨2, 1, true⟩ ReelsEvent.nextClick).activeIndex = 1) ∧
    ((1 : ℤ) = 0 → (reelsStep ⟨2, 1, true⟩ ReelsEvent.prevClick).activeIndex = 0) := by
  exact claim_C9_reelsIndex ⟨2, 1, true⟩
    [ReelsEvent.nextClick, ReelsEvent.scrollEv 0 1, ReelsEvent.settleTimer, ReelsEvent.arrowUp]
    (by decide) (by decide) (by decide)

theorem onehotCountTrue (n i : ℕ) : (onehot n i).count true = if i < n then 1 else 0 := by
  induction n with
  | zero => rfl
  | succ m ih =>
    have hm : ((List.range m).map (fun j => j == i)) = onehot m i := rfl
    rw [onehot, List.range_succ, List.map_append, List.count_append, hm, ih]
    simp only [List.map_cons, List.map_nil, List.count_cons, List.count_nil]
    rcases Nat.lt_trichotomy i m with hlt | heq | hgt
    · have hne : (m == i) = false := by simp [Nat.ne_of_gt hlt]
      simp [hne, hlt, Nat.lt_succ_of_lt hlt]
    · subst heq
      simp
    · have hne : (m == i) = false := by
        simp only [beq_eq_false_iff_ne, ne_eq]
        omega
      have h1 : ¬ i < m := by omega
      have h2 : ¬ i < m + 1 := by omega
      simp [hne, h1, h2]

theorem onehotLength (n i : ℕ) : (onehot n i).length = n := by
  simp [onehot]

theorem onehotGetD (n i j : ℕ) (h : j < n) : (onehot n i).getD j false = (j == i) := by
  unfold onehot
  rw [List.getD_eq_getElem?_getD, List.getElem?_map, List.getElem?_range h]
  rfl

theorem activateTabValid (tabs : List Tab) (panels : List Panel) (i : ℕ) (s : TabsState)
    (h : (tabs[i]?.bind tabKeyOf).isSome = true) :
    activateTab tabs panels i s = tabsAfterActivation tabs panels i := by
  match htab : tabs[i]? with
  | none =>
    rw [htab] at h
    simp at h
  | some t =>
    rw [htab] at h
    match hkey : tabKeyOf t with
    | none =>
      rw [Option.some_bind, hkey] at h
      simp at h
    | some k =>
      simp only [activateTab, htab, hkey, tabsAfterActivation, Option.some_bind]

theorem foldActs (tabs : List Tab) (panels : List Panel) (acts : List ℕ)
    (hkeys : ∀ i, i < tabs.length → (tabs[i]?.bind tabKeyOf).isSome = true)
    (hacts : ∀ a ∈ acts, a < tabs.length) (hne : acts ≠ []) (s : TabsState) :
    acts.foldl (fun s a => activateTab tabs panels a s) s =
      tabsAfterActivation tabs panels (acts.getLast hne) := by
  induction acts generalizing s with
  | nil => exact absurd rfl hne
  | cons a t ih =>
    by_cases ht : t = []
    · subst ht
      simp only [List.foldl_cons, List.foldl_nil, List.getLast_singleton]
      exact activateTabValid tabs panels a s (hkeys a (hacts a (List.mem_cons_self a [])))
    · simp only [List.foldl_cons]
      rw [ih (fun b hb => hacts b (List.mem_cons_of_mem a hb)) ht]
      rw [List.getLast_cons ht]

theorem runTabsEq (tabs : List Tab) (panels : List Panel) (acts : List ℕ) (s0 : TabsState)
    (hkeys : ∀ i, i < tabs.length → (tabs[i]?.bind tabKeyOf).isSome = true)
    (h0 : 0 < tabs.length)
    (hacts : ∀ a ∈ acts, a < tabs.length) :
    runTabs tabs panels acts s0 = tabsAfterActivation tabs panels (lastAct acts) := by
  unfold runTabs
  by_cases hne : acts = []
  · subst hne
    simp only [List.foldl_nil, lastAct, List.getLast?_nil, Option.getD_none]
    exact activateTabValid tabs panels 0 s0 (hkeys 0 h0)
  · rw [foldActs tabs panels acts hkeys hacts hne (activateTab tabs panels 0 s0)]
    unfold lastAct
    rw [List.getLast?_eq_getLast acts hne, Option.getD_some]

theorem lastActLt (tabs : List Tab) (acts : List ℕ) (h0 : 0 < tabs.length)
    (hacts : ∀ a ∈ acts, a < tabs.length) : lastAct acts < tabs.length := by
  unfold lastAct
  by_cases hne : acts = []
  · subst hne
    simpa using h0
  · rw [List.getLast?_eq_getLast acts hne, Option.getD_some]
    exact hacts _ (List.getLast_mem hne)

theorem countTrueMapBeq {α : Type} (l : List α) (f : α → Bool) :
    (l.map f).count true = l.countP f := by
  induction l with
  | nil => rfl
  | cons a t ih =>
    rw [List.map_cons, List.count_cons, ih, List.countP_cons]
    cases hfa : f a <;> simp [hfa]

/-- Claim C2: in a tab group where every tab carries a nonempty target key
and exactly one panel matches each tab key, after initialization and any
sequence of user activations exactly one tab carries `is-active` — the
most recently activated one (tab 0 before any user activation, so the
first tab is active by default) — and exactly one panel is visible, namely
exactly those panels whose key equals the activated tab's target key. -/
theorem claim_C2_tabs (tabs : List Tab) (panels : List Panel) (acts : List ℕ) (s0 : TabsState)
    (h0 : 0 < tabs.length)
    (hkeys : ∀ i, i < tabs.length → (tabs[i]?.bind tabKeyOf).isSome = true)
    (hpanels : ∀ i, i < tabs.length →
      panels.countP (fun p => p.key == tabs[i]?.bind tabKeyOf) = 1)
    (hacts : ∀ a ∈ acts, a < tabs.length) :
    (runTabs tabs panels acts s0).tabActive.count true = 1 ∧
    (runTabs tabs panels acts s0).tabActive.getD (lastAct acts) false = true ∧
    (runTabs tabs panels acts s0).panelVisible.count true = 1 ∧
    (∀ j p, panels[j]? = some p →
      ((runTabs tabs panels acts s0).panelVisible.getD j false = true ↔
        p.key = tabs[lastAct acts]?.bind tabKeyOf)) := by
  have hli : lastAct acts < tabs.length := lastActLt tabs acts h0 hacts
  rw [runTabsEq tabs panels acts s0 hkeys h0 hacts]
  refine ⟨?_, ?_, ?_, ?_⟩
  · show (onehot tabs.length (lastAct acts)).count true = 1
    rw [onehotCountTrue, if_pos hli]
  · show (onehot tabs.length (lastAct acts)).getD (lastAct acts) false = true
    rw [onehotGetD _ _ _ hli]
    simp
  · show ((panels.map fun p => p.key == tabs[lastAct acts]?.bind tabKeyOf).count true) = 1
    rw [countTrueMapBeq]
    exact hpanels _ hli
  · intro j p hj
    have hjlen : j < panels.length := by
      by_contra hge
      rw [List.getElem?_eq_none (by omega)] at hj
      exact Option.noConfusion hj
    show ((panels.map fun p => p.key == tabs[lastAct acts]?.bind tabKeyOf).getD j false
        = true ↔ _)
    rw [List.getD_eq_getElem?_getD, List.getElem?_map, hj]
    simp

/-- Witness for claim C2: two tabs with keys `a`, `b`, one matching panel
each; after activating tab 1 then tab 0, tab 0 alone is active and panel
`a` alone is visible. -/
theorem claim_C2_tabs_witness :
    (runTabs [Tab.mk (some "a"), Tab.mk (some "b")]
        [Panel.mk (some "a"), Panel.mk (some "b")] [1, 0] ⟨[], []⟩).tabActive.count true = 1 ∧
    (runTabs [Tab.mk (some "a"), Tab.mk (some "b")]
        [Panel.mk (some "a"), Panel.mk (some "b")] [1, 0] ⟨[], []⟩).tabActive.getD
        (lastAct [1, 0]) false = true ∧
    (runTabs [Tab.mk (some "a"), Tab.mk (some "b")]
        [Panel.mk (some "a"), Panel.mk (some "b")] [1, 0] ⟨[], []⟩).panelVisible.count true = 1 ∧
    (∀ j p, [Panel.mk (some "a"), Panel.mk (some "b")][j]? = some p →
      ((runTabs [Tab.mk (some "a"), Tab.mk (some "b")]
          [Panel.mk (some "a"), Panel.mk (some "b")] [1, 0] ⟨[], []⟩).panelVisible.getD j false
          = true ↔
        p.key = [Tab.mk (some "a"), Tab.mk (some "b")][lastAct [1, 0]]?.bind tabKeyOf)) := by
  exact claim_C2_tabs [Tab.mk (some "a"), Tab.mk (some "b")]
    [Panel.mk (some "a"), Panel.mk (some "b")] [1, 0] ⟨[], []⟩
    (by decide) (by decide) (by decide) (by decide)

/-- Claim C3: activating the row that is already current toggles
play/pause on the shared player and changes nothing else (no selection
change); activating a different row while row `j` is current writes row
`j`'s displayed time as its full probed duration (the `--:--` placeholder
when never probed), makes the new row the single active row (exactly one
`is-active` flag), switches the player source to the new row's URL,
reloads once, and begins playback. -/
theorem claim_C3_audioLibrary (rows : List AudioRow) (s : AudioState) (i : ℕ)
    (row : AudioRow) (url : String)
    (hrow : rows[i]? = some row) (hurl : row.url = some url) (hne : url ≠ "") :
    (s.currentRow = some i → loadAndPlayRow rows i s = { s with playing := !s.playing }) ∧
    (∀ j rj, s.currentRow = some j → j ≠ i → rows[j]? = some rj →
      s.displayed.length = rows.length →
      (loadAndPlayRow rows i s).displayed.getD j "" = formatTime (rowDurationNum rj) ∧
      (rj.probedDuration = none → (loadAndPlayRow rows i s).displayed.getD j "" = "--:--") ∧
      (loadAndPlayRow rows i s).currentRow = some i ∧
      (loadAndPlayRow rows i s).activeFlags = onehot rows.length i ∧
      (loadAndPlayRow rows i s).activeFlags.count true = 1 ∧
      (loadAndPlayRow rows i s).playerSrc = some url ∧
      (loadAndPlayRow rows i s).loads = s.loads + 1 ∧
      (loadAndPlayRow rows i s).playing = true) := by
  have hilen : i < rows.length := by
    by_contra hge
    rw [List.getElem?_eq_none (by omega)] at hrow
    exact Option.noConfusion hrow
  constructor
  · intro hcur
    simp only [loadAndPlayRow, hrow, hurl, if_neg hne, if_pos hcur]
    cases hp : s.playing <;> simp [hp]
  · intro j rj hcur hji hrj hlen
    have hjlen : j < rows.length := by
      by_contra hge
      rw [List.getElem?_eq_none (by omega)] at hrj
      exact Option.noConfusion hrj
    have hnotcur : ¬ s.currentRow = some i := by
      rw [hcur]
      intro hc
      exact hji (Option.some.inj hc)
    have hstate : loadAndPlayRow rows i s =
        { currentRow := some i,
          activeFlags := onehot rows.length i,
          displayed := s.displayed.set j (formatTime (rowDurationNum rj)),
          playerSrc := some url,
          loads := s.loads + 1,
          playing := true } := by
      simp only [loadAndPlayRow, hrow, hurl, if_neg hne, if_neg hnotcur, hcur,
        setRowTimeToDuration, hrj, Option.some.injEq, hji, if_false]
    rw [hstate]
    have hdisp : (s.displayed.set j (formatTime (rowDurationNum rj))).getD j "" =
        formatTime (rowDurationNum rj) := by
      rw [List.getD_eq_getElem?_getD, List.getElem?_set_self (by omega), Option.getD_some]
    refine ⟨hdisp, ?_, rfl, rfl, ?_, rfl, rfl, rfl⟩
    · intro hnone
      rw [hdisp]
      simp [rowDurationNum, hnone, formatTime]
    · rw [onehotCountTrue, if_pos hilen]

/-- Witness for claim C3: two rows, row 0 current and playing with no
probed duration; activating row 1 freezes row 0's display to the
placeholder, makes row 1 the single active row, switches the source to
row 1's URL, reloads, and plays. -/
theorem claim_C3_audioLibrary_witness :
    (loadAndPlayRow [AudioRow.mk (some "u1") none, AudioRow.mk (some "u2") (some (JSNum.fin 95))]
        1 ⟨some 0, [true, false], ["0:03", "1:35"], some "u1", 1, true⟩).displayed.getD 0 ""
      = "--:--" ∧
    (loadAndPlayRow [AudioRow.mk (some "u1") none, AudioRow.mk (some "u2") (some (JSNum.fin 95))]
        1 ⟨some 0, [true, false], ["0:03", "1:35"], some "u1", 1, true⟩).currentRow = some 1 ∧
    (loadAndPlayRow [AudioRow.mk (some "u1") none, AudioRow.mk (some "u2") (some (JSNum.fin 95))]
        1 ⟨some 0, [true, false], ["0:03", "1:35"], some "u1", 1, true⟩).activeFlags
      = [false, true] ∧
    (loadAndPlayRow [AudioRow.mk (some "u1") none, AudioRow.mk (some "u2") (some (JSNum.fin 95))]
        1 ⟨some 0, [true, false], ["0:03", "1:35"], some "u1", 1, true⟩).activeFlags.count true
      = 1 ∧
    (loadAndPlayRow [AudioRow.mk (some "u1") none, AudioRow.mk (some "u2") (some (JSNum.fin 95))]
        1 ⟨some 0, [true, false], ["0:03", "1:35"], some "u1", 1, true⟩).playerSrc = some "u2" ∧
    (loadAndPlayRow [AudioRow.mk (some "u1") none, AudioRow.mk (some "u2") (some (JSNum.fin 95))]
        1 ⟨some 0, [true, false], ["0:03", "1:35"], some "u1", 1, true⟩).loads = 2 ∧
    (loadAndPlayRow [AudioRow.mk (some "u1") none, AudioRow.mk (some "u2") (some (JSNum.fin 95))]
        1 ⟨some 0, [true, false], ["0:03", "1:35"], some "u1", 1, true⟩).playing = true := by
  have h := (claim_C3_audioLibrary
      [AudioRow.mk (some "u1") none, AudioRow.mk (some "u2") (some (JSNum.fin 95))]
      ⟨some 0, [true, false], ["0:03", "1:35"], some "u1", 1, true⟩ 1
      (AudioRow.mk (some "u2") (some (JSNum.fin 95))) "u2" rfl rfl (by decide)).2
      0 (AudioRow.mk (some "u1") none) rfl (by decide) rfl (by decide)
  refine ⟨h.2.1 rfl, h.2.2.1, ?_, h.2.2.2.2.1, h.2.2.2.2.2.1, h.2.2.2.2.2.2.1,
    h.2.2.2.2.2.2.2⟩
  rw [h.2.2.2.1]
  decide

theorem isPrefOfRefl (n t : List Char) : isPrefOf n (n ++ t) = true := by
  induction n with
  | nil => rfl
  | cons a as ih => simp [isPrefOf, ih]

theorem containsNilNeedle (h : List Char) : containsSubL [] h = true := by
  cases h <;> simp [containsSubL, isPrefOf, List.isEmpty]

theorem containsAppend (n a b : List Char) : containsSubL n (a ++ n ++ b) = true := by
  induction a with
  | nil =>
    cases hn : n with
    | nil =>
      simpa using containsNilNeedle b
    | cons c t =>
      simp only [List.nil_append, containsSubL]
      have hp : isPrefOf (c :: t) (c :: (t ++ b)) = true := by
        have := isPrefOfRefl (c :: t) b
        rwa [List.cons_append] at this
      simp [hp]
  | cons x xs ih =>
    simp only [List.cons_append, containsSubL]
    have ih' : containsSubL n (xs ++ (n ++ b)) = true := by
      rw [← List.append_assoc]
      exact ih
    simp [ih']

theorem endsWithAppend (n a : List Char) : endsWithL n (a ++ n) = true := by
  unfold endsWithL
  rw [List.reverse_append]
  exact isPrefOfRefl n.reverse a.reverse

theorem mp4ShapeIsMp4 (u : String) (h : endsInMp4OptQuery u) : isMp4Url u = true := by
  unfold isMp4Url
  rcases h with ⟨a, ha⟩ | ⟨a, b, hab⟩
  · have hl : lowerL u.data = lowerL a ++ ".mp4".data := by
      rw [ha]
      unfold lowerL
      rw [List.map_append]
      congr 1
    simp only [hl, endsWithAppend, Bool.true_or]
  · have hl : lowerL u.data = lowerL a ++ ".mp4?".data ++ lowerL b := by
      rw [hab]
      unfold lowerL
      rw [List.map_append, List.map_append]
      congr 2
    simp only [hl, containsAppend, Bool.or_true]

/-- Claim C5: the media rendered by the modal is chosen by URL shape: no
video URL, or a resolved kind of photo or audio, yields the static
fallback image; with a video URL and a non-photo/audio kind, a URL ending
in `.mp4` (optionally followed by a query string) yields a native video
element carrying the poster image, and a URL matching the known
embeddable-host patterns that is not an mp4 yields an iframe. -/
theorem claim_C5_renderMedia (d : MediaDataset) :
    ((orElseStr d.modalVideo "" = "" ∨ resolveKindKey d = "photo" ∨ resolveKindKey d = "audio") →
      renderMedia d =
        RenderResult.fallbackImg (orElseStr d.modalImage "assets/img/articles/thumb1.png")) ∧
    (orElseStr d.modalVideo "" ≠ "" → resolveKindKey d ≠ "photo" →
      resolveKindKey d ≠ "audio" →
      ((endsInMp4OptQuery (orElseStr d.modalVideo "") →
        renderMedia d = RenderResult.videoEl (orElseStr d.modalVideo "")
          (orElseStr d.modalImage "assets/img/articles/thumb1.png")) ∧
      (matchesEmbedPattern (orElseStr d.modalVideo "") = true →
        isMp4Url (orElseStr d.modalVideo "") = false →
        renderMedia d = RenderResult.iframeEl (orElseStr d.modalVideo "")))) := by
  constructor
  · intro h
    have hc : (decide (orElseStr d.modalVideo "" = "") || resolveKindKey d == "photo"
        || resolveKindKey d == "audio") = true := by
      rcases h with h | h | h <;> simp [h]
    simp only [renderMedia, hc, if_true]
  · intro hne hp ha
    have hc : (decide (orElseStr d.modalVideo "" = "") || resolveKindKey d == "photo"
        || resolveKindKey d == "audio") = false := by
      simp [hne, hp, ha]
    constructor
    · intro hshape
      have hmp4 : isMp4Url (orElseStr d.modalVideo "") = true :=
        mp4ShapeIsMp4 _ hshape
      have hc2 : (matchesEmbedPattern (orElseStr d.modalVideo "")
          && !isMp4Url (orElseStr d.modalVideo "")) = false := by
        rw [hmp4]
        simp
      simp only [renderMedia, hc, if_false, hc2, Bool.false_eq_true]
    · intro hemb hmp4
      have hc2 : (matchesEmbedPattern (orElseStr d.modalVideo "")
          && !isMp4Url (orElseStr d.modalVideo "")) = true := by
        rw [hemb, hmp4]
        rfl
      simp only [renderMedia, hc, hc2, Bool.false_eq_true, if_false, eq_self_iff_true,
        if_true]

/-- Witness for claim C5 on three concrete datasets: a photo card with no
video URL falls back to its image; an mp4 URL yields a native video
element with the poster; an embed-host URL yields an iframe. -/
theorem claim_C5_renderMedia_witness :
    renderMedia ⟨some "p.png", none, some "video", none⟩ =
      RenderResult.fallbackImg "p.png" ∧
    renderMedia ⟨some "p.png", some "clip.mp4", some "video", none⟩ =
      RenderResult.videoEl "clip.mp4" "p.png" ∧
    renderMedia ⟨none, some "https://youtube.com/embed/x", some "video", none⟩ =
      RenderResult.iframeEl "https://youtube.com/embed/x" := by
  refine ⟨?_, ?_, ?_⟩
  · have h := (claim_C5_renderMedia ⟨some "p.png", none, some "video", none⟩).1
      (Or.inl (by decide))
    rw [h]
    decide
  · have h := ((claim_C5_renderMedia ⟨some "p.png", some "clip.mp4", some "video", none⟩).2
      (by decide) (by decide) (by decide)).1
      (Or.inl ⟨"clip".data, by decide⟩)
    rw [h]
    decide
  · have h := ((claim_C5_renderMedia
      ⟨none, some "https://youtube.com/embed/x", some "video", none⟩).2
      (by decide) (by decide) (by decide)).2 (by decide) (by decide)
    rw [h]
    decide

theorem charOfNatToNat (m : ℕ) (h : m < 55296) : (Char.ofNat m).toNat = m := by
  have hv : m.isValidChar := Or.inl h
  simp only [Char.ofNat]
  rw [dif_pos hv]
  rfl

theorem wsFalseOfGt (d : Char) (hd : 64 < d.toNat) : d.isWhitespace = false := by
  have h1 : d ≠ ' ' := fun e => absurd hd (by subst e; decide)
  have h2 : d ≠ '\t' := fun e => absurd hd (by subst e; decide)
  have h3 : d ≠ '\r' := fun e => absurd hd (by subst e; decide)
  have h4 : d ≠ '\n' := fun e => absurd hd (by subst e; decide)
  simp [Char.isWhitespace, h1, h2, h3, h4]

theorem toLowerWS (c : Char) : (Char.toLower c).isWhitespace = c.isWhitespace := by
  simp only [Char.toLower]
  split
  case isTrue h =>
    have h1 : (Char.ofNat (c.toNat + 32)).toNat = c.toNat + 32 :=
      charOfNatToNat _ (by omega)
    have ha : (Char.ofNat (c.toNat + 32)).isWhitespace = false :=
      wsFalseOfGt _ (by rw [h1]; omega)
    have hb : c.isWhitespace = false := wsFalseOfGt c (by omega)
    rw [ha, hb]
  case isFalse h => rfl

theorem dwLowerComm (l : List Char) :
    (l.map Char.toLower).dropWhile Char.isWhitespace =
      (l.dropWhile Char.isWhitespace).map Char.toLower := by
  have hfun : (Char.isWhitespace ∘ Char.toLower) = Char.isWhitespace := by
    funext c
    exact toLowerWS c
  rw [List.dropWhile_map, hfun]

theorem lowerTrimComm (l : List Char) : lowerL (trimL l) = trimL (lowerL l) := by
  unfold lowerL trimL
  rw [dwLowerComm, ← List.map_reverse, dwLowerComm, ← List.map_reverse]

theorem isPrefOfIff (n h : List Char) : isPrefOf n h = true ↔ n <+: h := by
  induction n generalizing h with
  | nil => simp [isPrefOf]
  | cons a as ih =>
    cases h with
    | nil => simp [isPrefOf]
    | cons b bs => simp [isPrefOf, ih, List.cons_prefix_cons, beq_iff_eq]

theorem containsIffInfix (n h : List Char) : containsSubL n h = true ↔ n <:+: h := by
  induction h with
  | nil =>
    cases n <;> simp [containsSubL, List.isEmpty]
  | cons c t ih =>
    simp [containsSubL, isPrefOfIff, ih, List.infix_cons_iff]

theorem containsDecide (n h : List Char) : containsSubL n h = decide (n <:+: h) := by
  cases hb : containsSubL n h
  · have : ¬ n <:+: h := fun hi => by
      rw [(containsIffInfix n h).mpr hi] at hb
      exact Bool.noConfusion hb
    simp [this]
  · simp [(containsIffInfix n h).mp hb]

theorem matchItemEq (it : QuoteItem) (query : List Char) :
    matchItem it query = containsSubL query (haystackL it) := by
  cases query with
  | nil =>
    simp [matchItem, containsNilNeedle]
  | cons a t => simp [matchItem]

theorem headFilterFind {α : Type} (p : α → Bool) (l : List α) :
    (l.filter p).head? = l.find? p := by
  induction l with
  | nil => rfl
  | cons a t ih =>
    cases hpa : p a <;> simp [List.filter_cons, List.find?_cons, hpa, ih]

theorem applySearchHidden (items : List QuoteItem) (q : String) (s : QuotesState) :
    (applySearch items q s).hidden = items.map (fun it => !matchItem it (normL (some q))) := by
  unfold applySearch
  cases h : getActiveIdx (items.map fun it => !matchItem it (normL (some q))) s.active <;>
    simp [h]

theorem applySearchCongr (items : List QuoteItem) (s : QuotesState) (q q' : String)
    (h : normL (some q) = normL (some q')) :
    applySearch items q s = applySearch items q' s := by
  unfold applySearch
  rw [h]

theorem getActiveIdxFirstVis (hidden active : List Bool) (j0 : ℕ)
    (hact : active = onehot hidden.length j0)
    (hid : hidden.getD j0 false = true)
    (k0 : ℕ) (hfv : firstVis hidden = some k0) :
    getActiveIdx hidden active = some k0 := by
  unfold firstVis at hfv
  have hk0mem : k0 ∈ List.range hidden.length := List.mem_of_find?_eq_some hfv
  have hk0vis : (!hidden.getD k0 true) = true := by
    simpa using List.find?_some hfv
  have hvis_ne : visIdx hidden ≠ [] := by
    intro he
    have hmem : k0 ∈ visIdx hidden := List.mem_filter.mpr ⟨hk0mem, hk0vis⟩
    rw [he] at hmem
    exact absurd hmem (List.not_mem_nil k0)
  have hj0lt : j0 < hidden.length := by
    by_contra hge
    rw [List.getD_eq_getElem?_getD, List.getElem?_eq_none (by omega)] at hid
    exact Bool.noConfusion hid
  have hfind : (visIdx hidden).find? (fun j => active.getD j false) = none := by
    rw [List.find?_eq_none]
    intro j hj
    have hjmem := List.mem_filter.mp hj
    have hjlt : j < hidden.length := List.mem_range.mp hjmem.1
    have hjvis : (!hidden.getD j true) = true := hjmem.2
    rw [hact, onehotGetD _ _ _ hjlt]
    simp only [beq_iff_eq, Bool.not_eq_true]
    intro hjj0
    subst hjj0
    obtain ⟨b, hb⟩ : ∃ b, hidden[j]? = some b := by
      rw [List.getElem?_eq_getElem hjlt]
      exact ⟨_, rfl⟩
    rw [List.getD_eq_getElem?_getD, hb] at hid hjvis
    rw [Option.getD_some] at hid
    rw [hid] at hjvis
    exact Bool.noConfusion hjvis
  have hhead : (visIdx hidden).head? = some k0 := by
    unfold visIdx
    rw [headFilterFind]
    exact hfv
  unfold getActiveIdx
  cases hv : visIdx hidden with
  | nil => exact absurd hv hvis_ne
  | cons x xs =>
    rw [hv] at hfind hhead
    simp only [List.getD_eq_getElem?_getD] at hfind
    simp [hfind, hhead]

theorem firstVisSpec (hidden : List Bool) (k0 : ℕ) (hfv : firstVis hidden = some k0) :
    k0 < hidden.length ∧ hidden.getD k0 true = false := by
  unfold firstVis at hfv
  have hmem := List.mem_range.mp (List.mem_of_find?_eq_some hfv)
  have hvis : (!hidden.getD k0 true) = true := by
    simpa using List.find?_some hfv
  refine ⟨hmem, ?_⟩
  simpa using hvis

theorem visIdxNilOfAllHidden (hidden : List Bool)
    (h : ∀ j, j < hidden.length → hidden.getD j true = true) :
    visIdx hidden = [] := by
  unfold visIdx
  rw [List.filter_eq_nil_iff]
  intro j hj
  rw [List.mem_range] at hj
  rw [h j hj]
  simp

/-- Counterexample for claim C6: one item, currently featured and marked
active; a query matching nothing hides it and shows the empty state, but
the hidden item keeps its `is-active` mark, because `applySearch` skips
the featured re-render when `getActiveItem()` is null. -/
theorem claim_C6_counterexample :
    (applySearch [⟨some "alpha", none, none, none, none, none⟩] "zzz"
        ⟨[false], [true], true, some 0⟩).hidden = [true] ∧
    (applySearch [⟨some "alpha", none, none, none, none, none⟩] "zzz"
        ⟨[false], [true], true, some 0⟩).active = [true] ∧
    (applySearch [⟨some "alpha", none, none, none, none, none⟩] "zzz"
        ⟨[false], [true], true, some 0⟩).emptyHidden = false := by
  decide

/-- Claim C6 as amended: filtering hides non-matching items without
removing them; when the previously featured (single active) item became
hidden and some item is still visible, the featured item is reassigned to
the first visible item, which becomes the single active mark and is
itself visible; when no item remains visible, the empty state is shown
and the active marks are left unchanged (so a previously featured, now
hidden, item keeps its mark). -/
theorem claim_C6_quotesFilter (items : List QuoteItem) (q : String) (s : QuotesState) :
    ((applySearch items q s).hidden =
      items.map (fun it => !matchItem it (normL (some q))) ∧
      (applySearch items q s).hidden.length = items.length) ∧
    (∀ j0, s.active = onehot items.length j0 →
      (items.map (fun it => !matchItem it (normL (some q)))).getD j0 false = true →
      ∀ k0, firstVis (items.map (fun it => !matchItem it (normL (some q)))) = some k0 →
        (applySearch items q s).active = onehot items.length k0 ∧
        (applySearch items q s).featuredFrom = some k0 ∧
        (applySearch items q s).active.count true = 1 ∧
        (items.map (fun it => !matchItem it (normL (some q)))).getD k0 true = false) ∧
    ((∀ it ∈ items, matchItem it (normL (some q)) = false) →
      (applySearch items q s).emptyHidden = false ∧
      (applySearch items q s).active = s.active) := by
  refine ⟨⟨applySearchHidden items q s, ?_⟩, ?_, ?_⟩
  · rw [applySearchHidden items q s, List.length_map]
  · intro j0 hact hid k0 hfv
    have hlen : (items.map fun it => !matchItem it (normL (some q))).length = items.length :=
      List.length_map _ _
    have hga : getActiveIdx (items.map fun it => !matchItem it (normL (some q)))
        s.active = some k0 := by
      apply getActiveIdxFirstVis _ _ j0 _ hid k0 hfv
      rw [hlen]
      exact hact
    have hk0spec := firstVisSpec _ k0 hfv
    have hk0lt : k0 < items.length := by
      have := hk0spec.1
      rwa [List.length_map] at this
    have hstate : applySearch items q s =
        { hidden := items.map (fun it => !matchItem it (normL (some q))),
          active := onehot items.length k0,
          emptyHidden := decide
            ((items.filter (fun it => matchItem it (normL (some q)))).length ≠ 0),
          featuredFrom := some k0 } := by
      simp only [applySearch, hga]
    rw [hstate]
    refine ⟨rfl, rfl, ?_, hk0spec.2⟩
    rw [onehotCountTrue, if_pos hk0lt]
  · intro hall
    have hallhidden : ∀ j, j < (items.map fun it => !matchItem it (normL (some q))).length →
        (items.map fun it => !matchItem it (normL (some q))).getD j true = true := by
      intro j hj
      rw [List.length_map] at hj
      obtain ⟨it, hit⟩ : ∃ it, items[j]? = some it := by
        rw [List.getElem?_eq_getElem hj]
        exact ⟨_, rfl⟩
      rw [List.getD_eq_getElem?_getD, List.getElem?_map, hit]
      simp [hall it (List.getElem?_mem hit)]
    have hvnil : visIdx (items.map fun it => !matchItem it (normL (some q))) = [] :=
      visIdxNilOfAllHidden _ hallhidden
    have hga : getActiveIdx (items.map fun it => !matchItem it (normL (some q)))
        s.active = none := by
      unfold getActiveIdx
      rw [hvnil]
    have hstate : applySearch items q s =
        { s with
          hidden := items.map (fun it => !matchItem it (normL (some q))),
          emptyHidden := decide
            ((items.filter (fun it => matchItem it (normL (some q)))).length ≠ 0) } := by
      simp only [applySearch, hga]
    rw [hstate]
    constructor
    · have hfe : items.filter (fun it => matchItem it (normL (some q))) = [] := by
        rw [List.filter_eq_nil_iff]
        intro it hit
        rw [hall it hit]
        exact Bool.noConfusion
      simp [hfe]
    · rfl

/-- Witness for claim C6: two items, item 0 featured; a query matching
only item 1 hides item 0 and reassigns the featured mark to item 1, the
first (and only) visible item. -/
theorem claim_C6_quotesFilter_witness :
    ((applySearch
        [⟨some "alpha", none, none, none, none, none⟩,
          ⟨some "beta", none, none, none, none, none⟩] "beta"
        ⟨[false, false], [true, false], true, some 0⟩).active = onehot 2 1 ∧
      (applySearch
        [⟨some "alpha", none, none, none, none, none⟩,
          ⟨some "beta", none, none, none, none, none⟩] "beta"
        ⟨[false, false], [true, false], true, some 0⟩).featuredFrom = some 1 ∧
      (applySearch
        [⟨some "alpha", none, none, none, none, none⟩,
          ⟨some "beta", none, none, none, none, none⟩] "beta"
        ⟨[false, false], [true, false], true, some 0⟩).active.count true = 1) := by
  have h := (claim_C6_quotesFilter
      [⟨some "alpha", none, none, none, none, none⟩,
        ⟨some "beta", none, none, none, none, none⟩] "beta"
      ⟨[false, false], [true, false], true, some 0⟩).2.1 0 (by decide) (by decide)
      1 (by decide)
  exact ⟨h.1, h.2.1, h.2.2.1⟩

/-- Counterexample for claim C7: the search normalization is not
diacritic-insensitive: the queries `café` and `cafe` differ only in a
diacritic, yet the first hides an item whose text is `cafe` while the
second keeps it visible. -/
theorem claim_C7_counterexample :
    (applySearch [⟨some "cafe", none, none, none, none, none⟩] "café"
        ⟨[false], [true], true, some 0⟩).hidden = [true] ∧
    (applySearch [⟨some "cafe", none, none, none, none, none⟩] "cafe"
        ⟨[false], [true], true, some 0⟩).hidden = [false] := by
  decide

/-- Claim C7 as amended: an item stays visible under a query exactly when
the trimmed, lowercased query is a contiguous substring of the space-joined
concatenation of the lowercased searchable fields (text, year, type label,
meta, source, id) — a case-insensitive but diacritic-sensitive match — and
two queries equal up to letter case select the same state. -/
theorem claim_C7_searchMatch (items : List QuoteItem) (q : String) (s : QuotesState) :
    (∀ (k : ℕ) (it : QuoteItem), items[k]? = some it →
      (applySearch items q s).hidden[k]? =
        some (!(decide (normL (some q) <:+: haystackL it)))) ∧
    (∀ q' : String, lowerL q.data = lowerL q'.data →
      applySearch items q s = applySearch items q' s) := by
  constructor
  · intro k it hk
    rw [applySearchHidden items q s, List.getElem?_map, hk]
    simp only [Option.map_some']
    rw [matchItemEq, containsDecide]
  · intro q' hq
    apply applySearchCongr
    unfold normL
    simp only [Option.getD_some]
    rw [lowerTrimComm, lowerTrimComm, hq]

/-- Witness for claim C7: the uppercase query `WORLD` matches an item
whose text is `hello world` (its hidden flag is the matching substring
test, false here), and selects the same state as the lowercase query
`world`. -/
theorem claim_C7_searchMatch_witness :
    (applySearch [⟨some "hello world", none, none, none, none, none⟩] "WORLD"
        ⟨[false], [true], true, some 0⟩).hidden[0]? = some false ∧
    applySearch [⟨some "hello world", none, none, none, none, none⟩] "WORLD"
        ⟨[false], [true], true, some 0⟩ =
      applySearch [⟨some "hello world", none, none, none, none, none⟩] "world"
        ⟨[false], [true], true, some 0⟩ := by
  constructor
  · have h := (claim_C7_searchMatch
        [⟨some "hello world", none, none, none, none, none⟩] "WORLD"
        ⟨[false], [true], true, some 0⟩).1 0
        ⟨some "hello world", none, none, none, none, none⟩ rfl
    rw [h]
    decide
  · exact (claim_C7_searchMatch
        [⟨some "hello world", none, none, none, none, none⟩] "WORLD"
        ⟨[false], [true], true, some 0⟩).2 "world" (by decide)

end Saleh
